import Mathlib

set_option maxRecDepth 8192

/-!
Verification of `scripts/czds_download_and_sync.py`.

The script is a linear ETL pipeline: list approved zone files, download each,
parse the tab-separated lines, and delete-and-reinsert the rows for that TLD
into a Postgres store.  We shallowly embed the pure logic of the script:
Python string operations are modelled over `List Char` (faithful for the
ASCII data the script handles), the database is a pure state (a list of
record rows plus a list of zone rows), and the per-TLD loop of `main` is a
recursive function in which the fallible store interaction is an explicit
`Except`.
-/

namespace CzdsSync

/-! ### Python string primitives (ASCII model) -/

/-- Whitespace characters stripped by Python `str.strip()` (ASCII range). -/
def pyIsSpace (c : Char) : Bool :=
  c = ' ' || c = '\t' || c = '\n' || c = '\r' || c = '\x0b' || c = '\x0c'

/-- Python `str.rstrip(chars)`: remove the longest trailing run of characters
satisfying `p`. -/
def pyRstripChars (p : Char → Bool) : List Char → List Char
  | [] => []
  | c :: cs =>
    if pyRstripChars p cs = [] && p c then [] else c :: pyRstripChars p cs

/-- Python `str.strip()` relative to a character predicate: remove leading and
trailing runs of characters satisfying `p`. -/
def pyStripChars (p : Char → Bool) (l : List Char) : List Char :=
  pyRstripChars p (l.dropWhile p)

/-- Python `s.split(sep)` for a one-character separator: `"".split(sep)` is
`[""]`, and every occurrence of the separator produces a field boundary. -/
def pySplit (sep : Char) : List Char → List (List Char)
  | [] => [[]]
  | c :: cs =>
    if c = sep then [] :: pySplit sep cs
    else (c :: (pySplit sep cs).headD []) :: (pySplit sep cs).tail

/-- Python `lst[-1]` on a non-empty list (`pySplit` never returns `[]`). -/
def pyLast : List (List Char) → List Char
  | [] => []
  | [x] => x
  | _ :: x :: xs => pyLast (x :: xs)

/-- Python `str.lower()` (ASCII model). -/
def pyLower (l : List Char) : List Char := l.map Char.toLower

/-- `pyLower` on `String`. -/
def pyLowerS (s : String) : String := (pyLower s.data).asString

/-- Python `str.strip()` on `String`. -/
def pyStripS (s : String) : String := (pyStripChars pyIsSpace s.data).asString

/-- Fuelled core of Python `str.replace(pat, rep)`: replaces every
non-overlapping occurrence of `pat`, scanning left to right.  The fuel is an
upper bound on the number of characters consumed; each step consumes at least
one character. -/
def pyReplaceFuel (pat rep : List Char) : Nat → List Char → List Char
  | 0, s => s
  | _ + 1, [] => []
  | n + 1, c :: cs =>
    if pat ≠ [] ∧ pat.isPrefixOf (c :: cs) then
      rep ++ pyReplaceFuel pat rep n (cs.drop (pat.length - 1))
    else
      c :: pyReplaceFuel pat rep n cs

/-- Python `s.replace(pat, rep)` for a non-empty pattern. -/
def pyReplace (pat rep s : List Char) : List Char :=
  pyReplaceFuel pat rep s.length s

/-- Digit run of a Python integer literal, allowing single underscores
strictly between digits (`int("1_0") = 10`, `int("1_")` fails). `acc` is the
value of the digits already consumed. -/
def pyIntDigits : Nat → List Char → Option Nat
  | acc, [] => some acc
  | _, ['_'] => none
  | acc, '_' :: c :: cs =>
    if c.isDigit then pyIntDigits (acc * 10 + (c.toNat - 48)) cs else none
  | acc, c :: cs =>
    if c.isDigit then pyIntDigits (acc * 10 + (c.toNat - 48)) cs else none

/-- An unsigned Python integer literal: a non-empty digit run. -/
def pyIntStart : List Char → Option Nat
  | [] => none
  | c :: cs => if c.isDigit then pyIntDigits (c.toNat - 48) cs else none

/-- Python `int(s)` (ASCII model): strip surrounding whitespace, allow one
optional sign, then a non-empty digit run; `none` models `ValueError`. -/
def pyInt (l : List Char) : Option Int :=
  match pyStripChars pyIsSpace l with
  | '+' :: rest => (pyIntStart rest).map Int.ofNat
  | '-' :: rest => (pyIntStart rest).map (fun n => -(n : Int))
  | rest => (pyIntStart rest).map Int.ofNat

/-! ### `tld_from_url` (source lines 41–43)

```python
def tld_from_url(url: str) -> str:
    base = url.rstrip("/").split("/")[-1]
    return base.replace(".zone", "") if base.endswith(".zone") else base
```
-/

/-- The `".zone"` suffix recognized by `tld_from_url`. -/
def zoneSuffix : List Char := ['.', 'z', 'o', 'n', 'e']

/-- `tld_from_url` over character lists. -/
def tldFromUrlL (url : List Char) : List Char :=
  let base := pyLast (pySplit '/' (pyRstripChars (fun c => c = '/') url))
  if zoneSuffix.isSuffixOf base then pyReplace zoneSuffix [] base else base

/-- `tld_from_url` from the source: final path segment of the URL (after
removing trailing slashes); when it ends with `".zone"`, Python
`str.replace` removes the occurrences of `".zone"`. -/
def tld_from_url (url : String) : String := (tldFromUrlL url.data).asString

/-! ### `parse_line` (source lines 75–89)

```python
def parse_line(line: str) -> tuple | None:
    line = line.rstrip("\n")
    if not line or line.startswith(";") or line.startswith("$"):
        return None
    parts = line.split("\t")
    if len(parts) < 4:
        return None
    owner, ttl_str, cls, rtype = parts[0], parts[1], parts[2], parts[3]
    rdata = "\t".join(parts[4:]).strip() if len(parts) > 4 else ""
    try:
        ttl = int(ttl_str) if ttl_str else None
    except ValueError:
        ttl = None
    return (owner, ttl, cls or None, rtype or None, rdata or None)
```
-/

/-- The tuple `(owner, ttl, class, type, rdata)` returned by `parse_line`. -/
structure ZRecord where
  owner : List Char
  ttl : Option Int
  cls : Option (List Char)
  rtype : Option (List Char)
  rdata : Option (List Char)
deriving DecidableEq, Repr

/-- Python `s or None` for a string `s`: an empty string collapses to
`None`. -/
def optStr (l : List Char) : Option (List Char) :=
  if l = [] then none else some l

/-- The `try: ttl = int(ttl_str) if ttl_str else None / except ValueError:
ttl = None` block. -/
def parseTtl (ttl_str : List Char) : Option Int :=
  if ttl_str = [] then none else pyInt ttl_str

/-- `rdata = "\t".join(parts[4:]).strip() if len(parts) > 4 else ""`. -/
def rdataOf (parts : List (List Char)) : List Char :=
  if 4 < parts.length then
    pyStripChars pyIsSpace (List.intercalate ['\t'] (parts.drop 4))
  else []

/-- `line.rstrip("\n")`. -/
def strippedOf (raw : List Char) : List Char :=
  pyRstripChars (fun c => c = '\n') raw

/-- `parts = line.rstrip("\n").split("\t")`. -/
def partsOf (raw : List Char) : List (List Char) :=
  pySplit '\t' (strippedOf raw)

/-- The record built from the split fields on the success path of
`parse_line`. -/
def recordOf (parts : List (List Char)) : ZRecord :=
  { owner := parts.getD 0 []
    ttl := parseTtl (parts.getD 1 [])
    cls := optStr (parts.getD 2 [])
    rtype := optStr (parts.getD 3 [])
    rdata := optStr (rdataOf parts) }

/-- `parse_line` over character lists. -/
def parseLineL (raw : List Char) : Option ZRecord :=
  if (strippedOf raw).isEmpty || (strippedOf raw).head? == some ';'
      || (strippedOf raw).head? == some '$' then
    none
  else if (partsOf raw).length < 4 then
    none
  else
    some (recordOf (partsOf raw))

/-- `parse_line` from the source. -/
def parse_line (line : String) : Option ZRecord := parseLineL line.data

/-! ### `stream_zone_lines` (source lines 106–115)

The generator yields `parse_line(line)` for each line of the file, skipping
the `None` results (`if row:` — a non-empty tuple is always truthy, so the
guard is exactly "not `None`").  Decompression is transparent; we model the
resource by its list of text lines. -/

/-- `stream_zone_lines` from the source, over the lines of the resource. -/
def stream_zone_lines (lines : List String) : List ZRecord :=
  lines.filterMap parse_line

/-! ### `sync_tld_to_db` (source lines 118–162)

The store state is modelled as the `records` rows (one `(tld, record)` pair
per row; `id` and the `synced_at` column filled by a database default are not
part of the inserted values) and the `zones` rows (`tld` with its
`synced_at` time, written explicitly by the upsert).  The batching loop is
embedded with an explicit loop state so that the individual bulk-insert
calls (`execute_values`) remain observable. -/

/-- One row of the `records` table as inserted by the script:
`(tld, owner, ttl, class, type, rdata)`. -/
abbrev DBRow := String × ZRecord

/-- State of the batching loop in `sync_tld_to_db`: the current `batch`
buffer, the list of bulk inserts executed so far (one entry per
`execute_values` call), and the running `inserted` counter. -/
structure LoopSt where
  buffer : List DBRow
  flushed : List (List DBRow)
  inserted : Nat
deriving Repr

/-- One iteration of `for row in stream_zone_lines(path)`: append to the
batch; when the batch has reached `batch_size` rows, execute one bulk insert
and clear the batch. -/
def stepRow (batch_size : Nat) (s : LoopSt) (row : DBRow) : LoopSt :=
  if batch_size ≤ (s.buffer ++ [row]).length then
    { buffer := []
      flushed := s.flushed ++ [s.buffer ++ [row]]
      inserted := s.inserted + (s.buffer ++ [row]).length }
  else
    { s with buffer := s.buffer ++ [row] }

/-- The `if batch:` flush after the loop: a remaining non-empty batch is
inserted; an empty batch is not. -/
def flushFinal (s : LoopSt) : LoopSt :=
  if s.buffer.isEmpty then s
  else
    { buffer := []
      flushed := s.flushed ++ [s.buffer]
      inserted := s.inserted + s.buffer.length }

/-- The whole batching loop of `sync_tld_to_db` applied to the parsed rows. -/
def runBatches (batch_size : Nat) (rows : List DBRow) : LoopSt :=
  flushFinal (rows.foldl (stepRow batch_size) ⟨[], [], 0⟩)

/-- The store state: the `records` table and the `zones` table
(`tld`, `synced_at`). -/
structure DB where
  records : List DBRow
  zones : List (String × Nat)
deriving Repr

/-- `INSERT INTO zones (tld, synced_at) VALUES (%s, NOW()) ON CONFLICT (tld)
DO UPDATE SET synced_at = NOW()`. -/
def upsertZone (tld : String) (now : Nat) (zones : List (String × Nat)) :
    List (String × Nat) :=
  if zones.any (fun z => z.1 == tld) then
    zones.map (fun z => if z.1 == tld then (z.1, now) else z)
  else
    zones ++ [(tld, now)]

/-- Result of one `sync_tld_to_db` call: the new store state, the deleted
row count (`cur.rowcount`), the returned `inserted` count, and the number of
bulk-insert (`execute_values`) calls executed. -/
structure SyncResult where
  db : DB
  deleted : Nat
  inserted : Nat
  nbatches : Nat

/-- `sync_tld_to_db` from the source: delete all `records` rows of `tld`,
stream the parsed rows of the resource into batched bulk inserts, upsert the
`zones` row, and return the inserted count. -/
def sync_tld_to_db (db : DB) (tld : String) (lines : List String)
    (batch_size : Nat) (now : Nat) : SyncResult :=
  let kept := db.records.filter (fun rec => !(rec.1 == tld))
  let rows := (stream_zone_lines lines).map (fun r => (tld, r))
  let st := runBatches batch_size rows
  { db := { records := kept ++ st.flushed.flatten
            zones := upsertZone tld now db.zones }
    deleted := db.records.length - kept.length
    inserted := st.inserted
    nbatches := st.flushed.length }

/-! ### Selection configuration in `main` (source lines 171–187)

```python
max_tlds = int(os.environ.get("MAX_TLDS", "10"))
tld_whitelist_env = os.environ.get("TLD_WHITELIST", "").strip()
tld_whitelist = [s.strip().lower() for s in tld_whitelist_env.split(",")
                 if s.strip()] if tld_whitelist_env else None
...
url_tlds = [(u, tld_from_url(u)) for u in urls]
if tld_whitelist:
    url_tlds = [(u, t) for u, t in url_tlds if t.lower() in tld_whitelist]
else:
    url_tlds = url_tlds[:max_tlds]
```

An absent variable reads as `""`; a whitelist that is `None` or the empty
list is falsy, so both fall to the `max_tlds` branch — the empty list `[]`
is modelled for both. -/

/-- The parsed `TLD_WHITELIST` configuration: `[]` stands for Python's
`None` as well as the empty list (both falsy at the use site). -/
def tld_whitelist_of (env : String) : List String :=
  if pyStripS env = "" then []
  else
    (pySplit ',' (pyStripS env).data).filterMap fun s =>
      if pyStripChars pyIsSpace s = [] then none
      else some (pyLower (pyStripChars pyIsSpace s)).asString

/-- `url_tlds = [(u, tld_from_url(u)) for u in urls]`. -/
def url_tlds_of (urls : List String) : List (String × String) :=
  urls.map fun u => (u, tld_from_url u)

/-- The selection of `(url, tld)` pairs processed by `main`. -/
def select_url_tlds (env : String) (max_tlds : Nat) (urls : List String) :
    List (String × String) :=
  if (tld_whitelist_of env).isEmpty then (url_tlds_of urls).take max_tlds
  else
    (url_tlds_of urls).filter fun p =>
      (tld_whitelist_of env).contains (pyLowerS p.2)

/-! ### The per-TLD loop of `main` (source lines 199–215)

```python
for i, (url, tld) in enumerate(url_tlds, 1):
    ...
    path = download_zone(client, url, tld_dir)
    if not path:
        continue
    conn = psycopg2.connect(database_url)
    try:
        n = sync_tld_to_db(conn, tld, path, batch_size)
        print(f"  -> {n} records", flush=True)
    finally:
        conn.close()
print("Done.")
```

`download_zone` catches its exceptions and returns `None` on failure, so a
failed download skips the key.  The `try`/`finally` around `sync_tld_to_db`
has no `except` clause: an exception raised inside it propagates after the
connection is closed and terminates `main` (and the process, with an error)
without reaching the remaining keys.  We model the download outcome as a
`Bool`-valued oracle and the sync outcome as an `Except`-valued oracle; the
result is the list of keys for which `sync_tld_to_db` was invoked, together
with the propagated exception (if any; `none` means the loop ran to
completion and `"Done."` was printed — a success exit status). -/

/-- The per-TLD loop of `main`: returns the keys whose sync was attempted and
the exception that aborted the run, if any. -/
def mainLoop {ε : Type} (download : String → Bool)
    (syncf : String → Except ε Nat) :
    List (String × String) → List String × Option ε
  | [] => ([], none)
  | (url, tld) :: rest =>
    if download url then
      match syncf tld with
      | .error e => ([tld], some e)
      | .ok _ =>
        let r := mainLoop download syncf rest
        (tld :: r.1, r.2)
    else
      mainLoop download syncf rest

/-! ### Lemmas about the string primitives -/

/-- Number of occurrences of a character (used to count field boundaries). -/
def countCh (c : Char) : List Char → Nat
  | [] => 0
  | a :: l => (if a = c then 1 else 0) + countCh c l

theorem pySplit_ne_nil (sep : Char) (l : List Char) : pySplit sep l ≠ [] := by
  induction l with
  | nil => simp [pySplit]
  | cons c cs ih =>
    simp only [pySplit]
    split <;> simp

theorem pySplit_length (sep : Char) (l : List Char) :
    (pySplit sep l).length = countCh sep l + 1 := by
  induction l with
  | nil => simp [pySplit, countCh]
  | cons c cs ih =>
    by_cases hc : c = sep
    · simp only [pySplit, if_pos hc, countCh, List.length_cons, ih]
      omega
    · rcases h : pySplit sep cs with _ | ⟨hd, tl⟩
      · exact absurd h (pySplit_ne_nil sep cs)
      · rw [h] at ih
        simp only [pySplit, if_neg hc, h, countCh, List.headD_cons,
          List.tail_cons, List.length_cons] at ih ⊢
        omega

theorem pySplit_of_not_mem {sep : Char} {l : List Char} (h : sep ∉ l) :
    pySplit sep l = [l] := by
  induction l with
  | nil => rfl
  | cons c cs ih =>
    have hc : ¬ c = sep := fun e => h (by simp [e])
    have hcs : sep ∉ cs := fun m => h (List.mem_cons_of_mem _ m)
    simp [pySplit, if_neg hc, ih hcs]

theorem countCh_append_cons_self (sep : Char) (xs ys : List Char) :
    1 ≤ countCh sep (xs ++ sep :: ys) := by
  induction xs with
  | nil =>
    simp [countCh]
  | cons a xs ih =>
    simp only [List.cons_append, countCh, List.append_eq] at ih ⊢
    omega

theorem pySplit_length_ge_two (sep : Char) (xs ys : List Char) :
    2 ≤ (pySplit sep (xs ++ sep :: ys)).length := by
  rw [pySplit_length]
  have := countCh_append_cons_self sep xs ys
  omega

theorem pyLast_pySplit_append (sep : Char) (xs ys : List Char) :
    pyLast (pySplit sep (xs ++ sep :: ys)) = pyLast (pySplit sep ys) := by
  induction xs with
  | nil =>
    simp only [List.nil_append, pySplit, if_pos rfl]
    rcases h : pySplit sep ys with _ | ⟨a, t⟩
    · exact absurd h (pySplit_ne_nil sep ys)
    · rfl
  | cons x xs ih =>
    by_cases hc : x = sep
    · simp only [List.cons_append, pySplit, if_pos hc]
      rcases h : pySplit sep (xs ++ sep :: ys) with _ | ⟨a, t⟩
      · exact absurd h (pySplit_ne_nil _ _)
      · have e1 : pyLast ([] :: a :: t) = pyLast (a :: t) := rfl
        rw [e1, ← h]
        exact ih
    · simp only [List.cons_append, pySplit, if_neg hc]
      rcases h : pySplit sep (xs ++ sep :: ys) with _ | ⟨a, t⟩
      · exact absurd h (pySplit_ne_nil _ _)
      · have h2 := pySplit_length_ge_two sep xs ys
        rw [h] at h2
        rcases t with _ | ⟨b, t'⟩
        · simp at h2
        · simp only [List.headD_cons, List.tail_cons]
          have e1 : pyLast ((x :: a) :: b :: t') = pyLast (b :: t') := rfl
          have e2 : pyLast (a :: b :: t') = pyLast (b :: t') := rfl
          rw [e1, ← e2, ← h]
          exact ih

theorem pyRstripChars_concat {p : Char → Bool} {a : Char} (h : p a = false)
    (xs : List Char) : pyRstripChars p (xs ++ [a]) = xs ++ [a] := by
  induction xs with
  | nil => simp [pyRstripChars, h]
  | cons x xs ih => simp [pyRstripChars, ih]

theorem pyRstripChars_cons_shape (p : Char → Bool) (a : Char) (l : List Char) :
    pyRstripChars p (a :: l) = [] ∨
      ∃ t, pyRstripChars p (a :: l) = a :: t := by
  simp only [pyRstripChars]
  split
  · exact Or.inl rfl
  · exact Or.inr ⟨_, rfl⟩

theorem countCh_pyRstripChars_le (p : Char → Bool) (c : Char) (l : List Char) :
    countCh c (pyRstripChars p l) ≤ countCh c l := by
  induction l with
  | nil => simp [pyRstripChars]
  | cons a l ih =>
    simp only [pyRstripChars]
    split
    · simp only [countCh]
      split <;> omega
    · simp only [countCh]
      split <;> omega

/-! ### Lemmas about the batching loop -/

theorem stepRow_flatten (bs : Nat) (s : LoopSt) (r : DBRow) :
    (stepRow bs s r).flushed.flatten ++ (stepRow bs s r).buffer =
      s.flushed.flatten ++ s.buffer ++ [r] := by
  unfold stepRow
  split <;> simp

theorem stepRow_inserted (bs : Nat) (s : LoopSt) (r : DBRow)
    (h : s.inserted = s.flushed.flatten.length) :
    (stepRow bs s r).inserted = (stepRow bs s r).flushed.flatten.length := by
  unfold stepRow
  split <;> simp [h]

theorem foldl_stepRow_flatten (bs : Nat) (rows : List DBRow) :
    ∀ s : LoopSt,
      (rows.foldl (stepRow bs) s).flushed.flatten
          ++ (rows.foldl (stepRow bs) s).buffer =
        s.flushed.flatten ++ s.buffer ++ rows := by
  induction rows with
  | nil => intro s; simp
  | cons r rows ih =>
    intro s
    simp only [List.foldl_cons]
    rw [ih (stepRow bs s r), stepRow_flatten]
    simp

theorem foldl_stepRow_inserted (bs : Nat) (rows : List DBRow) :
    ∀ s : LoopSt, s.inserted = s.flushed.flatten.length →
      (rows.foldl (stepRow bs) s).inserted =
        (rows.foldl (stepRow bs) s).flushed.flatten.length := by
  induction rows with
  | nil => intro s h; simpa using h
  | cons r rows ih =>
    intro s h
    simp only [List.foldl_cons]
    exact ih _ (stepRow_inserted bs s r h)

theorem flushFinal_flatten (s : LoopSt) :
    (flushFinal s).flushed.flatten = s.flushed.flatten ++ s.buffer := by
  unfold flushFinal
  split
  · next h => simp [List.isEmpty_iff.mp h]
  · simp

theorem flushFinal_inserted (s : LoopSt)
    (h : s.inserted = s.flushed.flatten.length) :
    (flushFinal s).inserted = (flushFinal s).flushed.flatten.length := by
  unfold flushFinal
  split
  · exact h
  · simp [h]

theorem runBatches_flatten (bs : Nat) (rows : List DBRow) :
    (runBatches bs rows).flushed.flatten = rows := by
  unfold runBatches
  rw [flushFinal_flatten]
  have h := foldl_stepRow_flatten bs rows ⟨[], [], 0⟩
  simpa using h

theorem runBatches_inserted (bs : Nat) (rows : List DBRow) :
    (runBatches bs rows).inserted = rows.length := by
  have h1 : (runBatches bs rows).inserted =
      (runBatches bs rows).flushed.flatten.length := by
    unfold runBatches
    exact flushFinal_inserted _ (foldl_stepRow_inserted bs rows ⟨[], [], 0⟩ rfl)
  rw [h1, runBatches_flatten]

theorem foldl_stepRow_small (bs : Nat) (rows : List DBRow) :
    ∀ s : LoopSt, s.buffer.length + rows.length < bs →
      rows.foldl (stepRow bs) s = ⟨s.buffer ++ rows, s.flushed, s.inserted⟩ := by
  induction rows with
  | nil =>
    intro s h
    cases s
    simp
  | cons r rs ih =>
    intro s h
    simp only [List.length_cons] at h
    simp only [List.foldl_cons]
    have hlt : ¬ bs ≤ (s.buffer ++ [r]).length := by
      simp only [List.length_append, List.length_cons, List.length_nil]
      omega
    rw [show stepRow bs s r = { s with buffer := s.buffer ++ [r] } by
      unfold stepRow; rw [if_neg hlt]]
    rw [ih { s with buffer := s.buffer ++ [r] }
      (by simp only [List.length_append, List.length_cons, List.length_nil]; omega)]
    simp

theorem runBatches_single (bs : Nat) (rows : List DBRow) (h1 : rows ≠ [])
    (h2 : rows.length < bs) : (runBatches bs rows).flushed = [rows] := by
  unfold runBatches
  rw [foldl_stepRow_small bs rows ⟨[], [], 0⟩ (by simpa using h2)]
  unfold flushFinal
  simp [h1]

/-! ### Lemmas about the per-TLD loop of `main` -/

theorem mainLoop_cons_skip {ε : Type} (d : String → Bool)
    (s : String → Except ε Nat) (url tld : String)
    (rest : List (String × String)) (hd : d url = false) :
    mainLoop d s ((url, tld) :: rest) = mainLoop d s rest := by
  simp [mainLoop, hd]

theorem mainLoop_cons_error {ε : Type} (d : String → Bool)
    (s : String → Except ε Nat) (url tld : String)
    (rest : List (String × String)) (e : ε) (hd : d url = true)
    (hs : s tld = .error e) :
    mainLoop d s ((url, tld) :: rest) = ([tld], some e) := by
  simp [mainLoop, hd, hs]

theorem mainLoop_cons_ok {ε : Type} (d : String → Bool)
    (s : String → Except ε Nat) (url tld : String)
    (rest : List (String × String)) (n : Nat) (hd : d url = true)
    (hs : s tld = .ok n) :
    mainLoop d s ((url, tld) :: rest) =
      (tld :: (mainLoop d s rest).1, (mainLoop d s rest).2) := by
  simp [mainLoop, hd, hs]

theorem mainLoop_append {ε : Type} (d : String → Bool)
    (s : String → Except ε Nat) (xs ys : List (String × String))
    (h : (mainLoop d s xs).2 = none) :
    mainLoop d s (xs ++ ys) =
      ((mainLoop d s xs).1 ++ (mainLoop d s ys).1, (mainLoop d s ys).2) := by
  induction xs with
  | nil => simp [mainLoop]
  | cons p xs ih =>
    obtain ⟨url, tld⟩ := p
    rw [List.cons_append]
    by_cases hd : d url
    · cases hs : s tld with
      | error e =>
        rw [mainLoop_cons_error d s url tld xs e hd hs] at h
        simp at h
      | ok n =>
        rw [mainLoop_cons_ok d s url tld xs n hd hs] at h
        have h2 : (mainLoop d s xs).2 = none := h
        rw [mainLoop_cons_ok d s url tld (xs ++ ys) n hd hs,
          mainLoop_cons_ok d s url tld xs n hd hs, ih h2]
        simp
    · have hd' : d url = false := by simpa using hd
      rw [mainLoop_cons_skip d s url tld xs hd'] at h
      rw [mainLoop_cons_skip d s url tld (xs ++ ys) hd',
        mainLoop_cons_skip d s url tld xs hd']
      exact ih h

/-! ### Claim C2 -/

/-- Claim C2 (counterexample): the claim says only the trailing occurrence of
`".zone"` is removed, so `".../my.zone.zone"` should map to `"my.zone"`.  The
code uses Python `str.replace(".zone", "")`, which removes every occurrence:
the key actually produced is `"my"`, not `"my.zone"`. -/
theorem c2_counterexample :
    tld_from_url "https://czds.example/my.zone.zone" = "my" ∧
    ("my" : String) ≠ "my.zone" := by
  constructor
  · decide
  · decide

/-- Claim C2 (amended): for every URL of the form `prefix / segment` with a
non-empty, slash-free final segment, `tld_from_url` returns the segment
unchanged when it does not end with `".zone"`, and otherwise returns the
segment with every occurrence of `".zone"` removed (Python `replace`
semantics), not just the trailing one. -/
theorem c2_replace_all_occurrences (pre seg : List Char) (h1 : seg ≠ [])
    (h2 : '/' ∉ seg) :
    tldFromUrlL (pre ++ '/' :: seg) =
      if zoneSuffix.isSuffixOf seg then pyReplace zoneSuffix [] seg else seg := by
  rcases List.eq_nil_or_concat seg with h | ⟨L, b, rfl⟩
  · exact absurd h h1
  · simp only [List.concat_eq_append] at h2 ⊢
    have hb : b ≠ '/' := by
      intro e
      exact h2 (by simp [e])
    have e1 : pyRstripChars (fun c => decide (c = '/')) (pre ++ '/' :: (L ++ [b]))
        = pre ++ '/' :: (L ++ [b]) := by
      have e : pre ++ '/' :: (L ++ [b]) = (pre ++ '/' :: L) ++ [b] := by simp
      rw [e, pyRstripChars_concat (by simp [hb]) (pre ++ '/' :: L)]
    have e2 : pyLast (pySplit '/' (pre ++ '/' :: (L ++ [b]))) = L ++ [b] := by
      rw [pyLast_pySplit_append '/' pre (L ++ [b]), pySplit_of_not_mem h2]
      rfl
    simp only [tldFromUrlL]
    rw [e1, e2]

/-- Witness for C2 (amended) at a concrete URL: the segment
`"example.zone"` contains `".zone"` only as its suffix, and the derived key
is `"example"`. -/
theorem c2_witness :
    tldFromUrlL ("https://host".data ++ '/' :: "example.zone".data) =
      "example".data := by
  rw [c2_replace_all_occurrences "https://host".data "example.zone".data
    (by decide) (by decide)]
  decide

/-! ### Claim C7 -/

/-- Claim C7: every line that is empty after removal of trailing newlines,
or whose first character is `;` or `$`, or that splits on tab into fewer
than four fields, yields no record. -/
theorem c7_skip_lines (line : String)
    (h : strippedOf line.data = [] ∨ line.data.head? = some ';' ∨
      line.data.head? = some '$' ∨ (pySplit '\t' line.data).length < 4) :
    parse_line line = none := by
  rcases h with h | h | h | h
  · simp [parse_line, parseLineL, h]
  · rcases hl : line.data with _ | ⟨a, t⟩
    · rw [hl] at h
      simp at h
    · rw [hl] at h
      simp only [List.head?_cons, Option.some.injEq] at h
      subst h
      rcases pyRstripChars_cons_shape (fun c => decide (c = '\n')) ';' t with
        h2 | ⟨t', h2⟩
      · simp [parse_line, parseLineL, strippedOf, hl, h2]
      · simp [parse_line, parseLineL, strippedOf, hl, h2]
  · rcases hl : line.data with _ | ⟨a, t⟩
    · rw [hl] at h
      simp at h
    · rw [hl] at h
      simp only [List.head?_cons, Option.some.injEq] at h
      subst h
      rcases pyRstripChars_cons_shape (fun c => decide (c = '\n')) '$' t with
        h2 | ⟨t', h2⟩
      · simp [parse_line, parseLineL, strippedOf, hl, h2]
      · simp [parse_line, parseLineL, strippedOf, hl, h2]
  · have hle : countCh '\t' (strippedOf line.data) ≤ countCh '\t' line.data :=
      countCh_pyRstripChars_le _ '\t' line.data
    have e1 := pySplit_length '\t' line.data
    have e2 := pySplit_length '\t' (strippedOf line.data)
    have h4 : (partsOf line.data).length < 4 := by
      unfold partsOf
      rw [e2]
      omega
    simp [parse_line, parseLineL, h4]

/-- Witness for C7: a comment line yields no record. -/
theorem c7_witness : parse_line ";this is a comment" = none :=
  c7_skip_lines ";this is a comment" (Or.inr (Or.inl (by decide)))

/-! ### Claim C3 -/

/-- Claim C3 (counterexample): on the line `"a\t1\t\tA"` (four fields, the
class field empty) the claim requires the record's class to equal the string
at field position 2, i.e. the empty string.  The code applies `cls or None`,
so the record is produced but its class is `None`, not the empty string. -/
theorem c3_counterexample :
    (parse_line "a\t1\t\tA").isSome = true ∧
    (parse_line "a\t1\t\tA").map ZRecord.cls ≠ some (some "".data) := by
  constructor
  · decide
  · decide

/-- Claim C3 (amended): for every line that is non-empty after trailing
newline removal, does not start with `;` or `$`, and splits on tab into at
least four fields, `parse_line` yields a record whose owner is field 0,
whose TTL is field 1 coerced to integer-or-absent, whose class and type are
fields 2 and 3 with the empty string collapsing to "no value", and whose
payload is the tab-rejoined, whitespace-trimmed remainder, likewise
collapsing to "no value" when empty. -/
theorem c3_fields_of_long_line (line : String)
    (h1 : strippedOf line.data ≠ [])
    (h2 : (strippedOf line.data).head? ≠ some ';')
    (h3 : (strippedOf line.data).head? ≠ some '$')
    (h4 : 4 ≤ (partsOf line.data).length) :
    parse_line line = some
      { owner := (partsOf line.data).getD 0 []
        ttl := parseTtl ((partsOf line.data).getD 1 [])
        cls := optStr ((partsOf line.data).getD 2 [])
        rtype := optStr ((partsOf line.data).getD 3 [])
        rdata := optStr (pyStripChars pyIsSpace
          (List.intercalate ['\t'] ((partsOf line.data).drop 4))) } := by
  have hr : rdataOf (partsOf line.data) =
      pyStripChars pyIsSpace
        (List.intercalate ['\t'] ((partsOf line.data).drop 4)) := by
    unfold rdataOf
    split
    · rfl
    · next hlen =>
      have h5 : (partsOf line.data).length = 4 := by omega
      rw [← h5, List.drop_length]
      rfl
  have hc : ((strippedOf line.data).isEmpty
      || (strippedOf line.data).head? == some ';'
      || (strippedOf line.data).head? == some '$') = false := by
    rcases hl : strippedOf line.data with _ | ⟨a, t⟩
    · exact absurd hl h1
    · rw [hl] at h2 h3
      simp at h2 h3
      simp [h2, h3]
  unfold parse_line parseLineL
  rw [hc]
  simp only [Bool.false_eq_true, if_false]
  rw [if_neg (by omega)]
  unfold recordOf
  rw [hr]

/-- Witness for C3 (amended) at a concrete line with five fields. -/
theorem c3_witness :
    parse_line "a\t300\tIN\tA\t1.2.3.4" = some
      { owner := "a".data, ttl := some 300, cls := some "IN".data,
        rtype := some "A".data, rdata := some "1.2.3.4".data } := by
  rw [c3_fields_of_long_line "a\t300\tIN\tA\t1.2.3.4"
    (by decide) (by decide) (by decide) (by decide)]
  decide

/-! ### Claim C4 -/

/-- Claim C4: `parse_line` is total (in this embedding it is a Lean function
into `Option`, the shape of "returns a record or no record, never raises"),
and whenever a record is produced from a line whose TTL field is empty or
not accepted by integer parsing, the record's TTL is "no value" rather than
an error. -/
theorem c4_total_and_ttl_fallback (line : String) (r : ZRecord)
    (h1 : parse_line line = some r)
    (h2 : (partsOf line.data).getD 1 [] = [] ∨
      pyInt ((partsOf line.data).getD 1 []) = none) :
    r.ttl = none := by
  unfold parse_line parseLineL at h1
  split at h1
  · exact Option.noConfusion h1
  · split at h1
    · exact Option.noConfusion h1
    · rw [← Option.some.inj h1]
      show parseTtl ((partsOf line.data).getD 1 []) = none
      unfold parseTtl
      rcases h2 with h2 | h2
      · rw [if_pos h2]
      · split
        · rfl
        · exact h2

/-- Witness for C4 at a line whose TTL field is not a number. -/
theorem c4_witness : (parse_line "a\tXYZ\tIN\tA").map ZRecord.ttl = some none := by
  have h1 : parse_line "a\tXYZ\tIN\tA" =
      some (recordOf (partsOf "a\tXYZ\tIN\tA".data)) := by decide
  have h2 := c4_total_and_ttl_fallback "a\tXYZ\tIN\tA"
    (recordOf (partsOf "a\tXYZ\tIN\tA".data)) h1 (Or.inr (by decide))
  rw [h1, Option.map_some', h2]

/-! ### Claim C10 -/

/-- Claim C10: `parse_line` applies no sign or range restriction to the TTL:
whenever a record is produced and the TTL field is accepted by Python
integer parsing (including negative values and surrounding whitespace), the
record carries exactly that integer. -/
theorem c10_ttl_unrestricted (line : String) (r : ZRecord) (n : Int)
    (h1 : parse_line line = some r)
    (h2 : pyInt ((partsOf line.data).getD 1 []) = some n) :
    r.ttl = some n := by
  unfold parse_line parseLineL at h1
  split at h1
  · exact Option.noConfusion h1
  · split at h1
    · exact Option.noConfusion h1
    · rw [← Option.some.inj h1]
      show parseTtl ((partsOf line.data).getD 1 []) = some n
      unfold parseTtl
      split
      · next he =>
        rw [he, show pyInt [] = none from rfl] at h2
        exact Option.noConfusion h2
      · exact h2

/-- Witness for C10 at a line whose TTL field is a negative number with
surrounding whitespace. -/
theorem c10_witness :
    (parse_line "a\t -5 \tIN\tA").map ZRecord.ttl = some (some (-5)) := by
  have h1 : parse_line "a\t -5 \tIN\tA" =
      some (recordOf (partsOf "a\t -5 \tIN\tA".data)) := by decide
  have h2 := c10_ttl_unrestricted "a\t -5 \tIN\tA"
    (recordOf (partsOf "a\t -5 \tIN\tA".data)) (-5) h1 (by decide)
  rw [h1, Option.map_some', h2]

/-! ### Claim C5 -/

/-- Claim C5 (counterexample): for a resource whose parse yields zero
records and batch size 1 (so B > N), the final `if batch:` guard skips the
empty flush: no bulk insert at all is issued, not exactly one. -/
theorem c5_counterexample :
    (stream_zone_lines ([] : List String)).length < 1 ∧
    (sync_tld_to_db ⟨[], []⟩ "t" [] 1 0).nbatches ≠ 1 := by
  constructor
  · decide
  · decide

/-- Claim C5 (amended): for every resource whose parse yields `N` records
and every batch size `B ≥ 1`, `sync_tld_to_db` returns exactly `N`
(independent of `B`), and when `1 ≤ N < B` exactly one bulk insert is
issued; when `N = 0` no bulk insert is issued at all. -/
theorem c5_inserted_count (db : DB) (tld : String) (lines : List String)
    (batch_size now : Nat) (_hbs : 1 ≤ batch_size) :
    (sync_tld_to_db db tld lines batch_size now).inserted =
      (stream_zone_lines lines).length ∧
    (1 ≤ (stream_zone_lines lines).length →
      (stream_zone_lines lines).length < batch_size →
      (sync_tld_to_db db tld lines batch_size now).nbatches = 1) := by
  constructor
  · show (runBatches batch_size
      ((stream_zone_lines lines).map (fun r => (tld, r)))).inserted = _
    rw [runBatches_inserted, List.length_map]
  · intro hN hlt
    have hne : (stream_zone_lines lines).map (fun r => (tld, r)) ≠ [] := by
      intro he
      have := congrArg List.length he
      simp only [List.length_map, List.length_nil] at this
      omega
    have hlt' : ((stream_zone_lines lines).map (fun r => (tld, r))).length
        < batch_size := by
      rw [List.length_map]
      exact hlt
    show (runBatches batch_size
      ((stream_zone_lines lines).map (fun r => (tld, r)))).flushed.length = 1
    rw [runBatches_single batch_size _ hne hlt']
    rfl

/-- Witness for C5 (amended): one parsed record, batch size 5: one bulk
insert, inserted count 1. -/
theorem c5_witness :
    (sync_tld_to_db ⟨[], []⟩ "t" ["a\t1\tIN\tA\tx", ";c"] 5 0).inserted = 1 ∧
    (sync_tld_to_db ⟨[], []⟩ "t" ["a\t1\tIN\tA\tx", ";c"] 5 0).nbatches = 1 := by
  have h := c5_inserted_count ⟨[], []⟩ "t" ["a\t1\tIN\tA\tx", ";c"] 5 0
    (by decide)
  constructor
  · rw [h.1]
    decide
  · exact h.2 (by decide) (by decide)

/-! ### Lemmas about filtering tagged rows (for C6) -/

theorem filter_map_tag_eq (tld : String) (rs : List ZRecord) :
    (rs.map (fun r => (tld, r))).filter (fun x => x.1 == tld) =
      rs.map (fun r => (tld, r)) := by
  induction rs with
  | nil => rfl
  | cons r rs ih => simp [List.filter_cons, ih]

theorem filter_eq_of_filter_ne (tld : String) (l : List DBRow) :
    (l.filter (fun x => !(x.1 == tld))).filter (fun x => x.1 == tld) = [] := by
  induction l with
  | nil => rfl
  | cons a l ih =>
    cases h : (a.1 == tld) with
    | false => simp [List.filter_cons, h, ih]
    | true => simp [List.filter_cons, h, ih]

/-! ### Claim C6 -/

/-- Claim C6: running `sync_tld_to_db` twice in succession with the same
key, resource and batch size returns the same inserted count both times and
leaves the store with the same rows for that key after each run (old rows
replaced, never accumulated). -/
theorem c6_sync_idempotent (db : DB) (tld : String) (lines : List String)
    (batch_size n1 n2 : Nat) :
    (sync_tld_to_db (sync_tld_to_db db tld lines batch_size n1).db tld lines
        batch_size n2).inserted =
      (sync_tld_to_db db tld lines batch_size n1).inserted ∧
    (sync_tld_to_db (sync_tld_to_db db tld lines batch_size n1).db tld lines
        batch_size n2).db.records.filter (fun x => x.1 == tld) =
      (sync_tld_to_db db tld lines batch_size n1).db.records.filter
        (fun x => x.1 == tld) := by
  constructor
  · show (runBatches batch_size
        ((stream_zone_lines lines).map (fun r => (tld, r)))).inserted =
      (runBatches batch_size
        ((stream_zone_lines lines).map (fun r => (tld, r)))).inserted
    rfl
  · simp only [sync_tld_to_db]
    rw [runBatches_flatten]
    simp only [List.filter_append, filter_eq_of_filter_ne, filter_map_tag_eq,
      List.nil_append]

/-! ### Claim C1 -/

/-- Claim C1 (counterexample): two approved keys whose downloads succeed;
the sync of the first raises a store error.  The claim says the second key
is still attempted and the run completes with a success status; in the code
the exception propagates out of the `try`/`finally` (which has no `except`),
so the second key is never attempted and the run aborts with the error. -/
theorem c1_counterexample :
    (mainLoop (fun _ => true)
      (fun t => if t = "a" then Except.error () else Except.ok 0)
      [("u1", "a"), ("u2", "b")]).2 = some () ∧
    "b" ∉ (mainLoop (fun _ => true)
      (fun t => if t = "a" then Except.error () else Except.ok 0)
      [("u1", "a"), ("u2", "b")]).1 := by
  constructor
  · decide
  · decide

/-- Claim C1 (amended): whenever the keys before some pair were processed
without a propagated error, the download of that pair succeeds and its sync
raises a store error `e`, the loop ends immediately: the failing key is the
last one attempted, no later pair is reached, and the run aborts with `e`
(a non-success exit) instead of printing the completion message. -/
theorem c1_store_failure_aborts (ε : Type) (d : String → Bool)
    (s : String → Except ε Nat) (pre rest : List (String × String))
    (url tld : String) (e : ε)
    (hpre : (mainLoop d s pre).2 = none) (hd : d url = true)
    (hs : s tld = Except.error e) :
    mainLoop d s (pre ++ (url, tld) :: rest) =
      ((mainLoop d s pre).1 ++ [tld], some e) := by
  rw [mainLoop_append d s pre ((url, tld) :: rest) hpre,
    mainLoop_cons_error d s url tld rest e hd hs]

/-- Witness for C1 (amended): one successful key, then a failing one; the
third key is never attempted and the error propagates. -/
theorem c1_witness :
    mainLoop (fun _ => true)
      (fun t => if t = "bad" then Except.error 7 else Except.ok 1)
      ([("u0", "ok")] ++ ("u1", "bad") :: [("u2", "c")]) =
      (["ok", "bad"], some 7) := by
  rw [c1_store_failure_aborts Nat (fun _ => true)
    (fun t => if t = "bad" then Except.error 7 else Except.ok 1)
    [("u0", "ok")] [("u2", "c")] "u1" "bad" 7 (by decide) rfl (by simp)]
  decide

/-! ### Claim C8 -/

/-- Claim C8: when a non-empty allow-list is configured, the selection is
exactly the listed resources whose derived key matches an allow-list entry
case-insensitively — the maximum-count limit does not truncate it (the
right-hand side does not mention `max_tlds`); when no allow-list is
configured (the variable is absent or blank), the selection is the first
`max_tlds` resources in listing order. -/
theorem c8_whitelist_overrides_max (env : String) (max_tlds : Nat)
    (urls : List String) :
    (tld_whitelist_of env ≠ [] →
      select_url_tlds env max_tlds urls =
        (url_tlds_of urls).filter (fun p =>
          (tld_whitelist_of env).contains (pyLowerS p.2))) ∧
    (pyStripS env = "" →
      select_url_tlds env max_tlds urls = (url_tlds_of urls).take max_tlds) := by
  constructor
  · intro h
    rcases hW : tld_whitelist_of env with _ | ⟨a, l⟩
    · exact absurd hW h
    · unfold select_url_tlds
      rw [hW, if_neg (by simp)]
  · intro h
    unfold select_url_tlds tld_whitelist_of
    rw [if_pos h]
    simp

/-- Witness for C8: with allow-list `"COM, net"` and `max_tlds = 1`, both
`com` and `net` are selected (no truncation, case-insensitive) and `org` is
not; with no allow-list and `max_tlds = 1`, only the first resource is
selected. -/
theorem c8_witness :
    select_url_tlds "COM, net" 1
      ["https://x/com.zone", "https://x/net.zone", "https://x/org.zone"] =
      [("https://x/com.zone", "com"), ("https://x/net.zone", "net")] ∧
    select_url_tlds "" 1
      ["https://x/com.zone", "https://x/net.zone", "https://x/org.zone"] =
      [("https://x/com.zone", "com")] := by
  constructor
  · rw [(c8_whitelist_overrides_max "COM, net" 1
      ["https://x/com.zone", "https://x/net.zone", "https://x/org.zone"]).1
      (by decide)]
    decide
  · rw [(c8_whitelist_overrides_max "" 1
      ["https://x/com.zone", "https://x/net.zone", "https://x/org.zone"]).2
      (by decide)]
    decide

/-! ### Claim C9 -/

/-- Claim C9: an allow-list configuration value that is set but contains
only empty or whitespace entries (such as `","` or `" , "`) parses to the
empty list, which is falsy at the use site: selection falls back to the
first `max_tlds` resources instead of selecting nothing. -/
theorem c9_blank_whitelist_falls_back (env : String) (max_tlds : Nat)
    (urls : List String) (h1 : ¬ pyStripS env = "")
    (h2 : ∀ s ∈ pySplit ',' (pyStripS env).data,
      pyStripChars pyIsSpace s = []) :
    select_url_tlds env max_tlds urls = (url_tlds_of urls).take max_tlds := by
  have hW : tld_whitelist_of env = [] := by
    unfold tld_whitelist_of
    rw [if_neg h1]
    refine List.filterMap_eq_nil_iff.mpr ?_
    intro s hs
    rw [if_pos (h2 s hs)]
  unfold select_url_tlds
  rw [hW]
  simp

/-- Witness for C9: the configured value `" , "` is non-blank but has only
blank entries; selection is the `max_tlds`-limited listing. -/
theorem c9_witness :
    select_url_tlds " , " 1 ["https://x/com.zone", "https://x/net.zone"] =
      [("https://x/com.zone", "com")] := by
  rw [c9_blank_whitelist_falls_back " , " 1
    ["https://x/com.zone", "https://x/net.zone"] (by decide) (by decide)]
  decide

end CzdsSync
